import Mathlib

/-!
Verification of the event status lifecycle engine of the uni-event-hub
backend.

The embedding models, faithfully to the JavaScript source:

- the Event record fields the scheduler touches (`date`, `status`,
  `completedAt`, `lastStatusUpdate`, `statusUpdateCount`), with instants
  as integer milliseconds since the epoch;
- the per-record instance method `EventSchema.methods.updateStatus`;
- the three sequential `updateMany` operations that make up one
  reconciliation pass of `EventStatusService.updateAllEventStatuses`,
  composed per record as `servicePass` (the three query filters are
  pairwise disjoint on any single record, so per-record sequential
  composition is exactly the effect of the three collection-wide
  updates); a MongoDB update that writes the values a document already
  holds leaves the document unchanged, which the value-level equality of
  the model captures;
- the static bulk method `EventSchema.statics.updateEventsStatus` with
  its candidate filter, per-record save, summary tally and rethrowing
  catch block;
- the service object state (`isRunning` flag plus the store), the
  guard / try / catch / finally structure of `updateAllEventStatuses`
  under a store-failure model, `manualUpdate`, and `getStatus`.
-/

namespace UniEventHub

/-- The four values of the `status` enum of the Event schema. -/
inductive Status where
  | upcoming
  | ongoing
  | completed
  | cancelled
deriving DecidableEq

/-- The fields of an Event record that the status engine reads or
writes.  Instants are integer milliseconds since the epoch, matching
JavaScript Date arithmetic. -/
structure Event where
  date : Int
  status : Status
  completedAt : Option Int
  lastStatusUpdate : Option Int
  statusUpdateCount : Nat
deriving DecidableEq

/-- Thirty minutes in milliseconds: the completion grace window,
written `30 * 60 * 1000` at both code sites. -/
def thirtyMinutesMs : Int := 30 * 60 * 1000

/-- Five minutes in milliseconds: the staleness threshold of the
candidate query in `updateEventsStatus`. -/
def fiveMinutesMs : Int := 5 * 60 * 1000

/-- First `updateMany` of `updateAllEventStatuses`: filter
`status ∈ [upcoming, ongoing] ∧ ongoingThreshold ≤ date ≤ now`, update
`status := ongoing, lastStatusUpdate := now`, where `ongoingThreshold`
is `now` minus thirty minutes. -/
def ongoingUpdate (now : Int) (e : Event) : Event :=
  if (e.status = Status.upcoming ∨ e.status = Status.ongoing) ∧
      now - thirtyMinutesMs ≤ e.date ∧ e.date ≤ now then
    { e with status := Status.ongoing, lastStatusUpdate := some now }
  else
    e

/-- Second `updateMany` of `updateAllEventStatuses`: filter
`status ∈ [upcoming, ongoing] ∧ date < completedThreshold` (strict),
update `status := completed, completedAt := now,
lastStatusUpdate := now`, where `completedThreshold` is `now` minus
thirty minutes. -/
def completedUpdate (now : Int) (e : Event) : Event :=
  if (e.status = Status.upcoming ∨ e.status = Status.ongoing) ∧
      e.date < now - thirtyMinutesMs then
    { e with status := Status.completed, completedAt := some now,
             lastStatusUpdate := some now }
  else
    e

/-- Third `updateMany` of `updateAllEventStatuses`: filter
`status ∈ [ongoing, completed] ∧ date > now` (strict), update
`status := upcoming`, unset `completedAt`, `lastStatusUpdate := now`. -/
def upcomingUpdate (now : Int) (e : Event) : Event :=
  if (e.status = Status.ongoing ∨ e.status = Status.completed) ∧
      now < e.date then
    { e with status := Status.upcoming, completedAt := none,
             lastStatusUpdate := some now }
  else
    e

/-- The effect of one reconciliation pass of
`EventStatusService.updateAllEventStatuses` on a single event record:
the three `updateMany` operations applied in source order. -/
def servicePass (now : Int) (e : Event) : Event :=
  upcomingUpdate now (completedUpdate now (ongoingUpdate now e))

/-- The `newStatus` computation inside
`EventSchema.methods.updateStatus`: `completed` when
`date ≤ now - 30min`, `ongoing` when `date ≤ now`, `upcoming`
otherwise. -/
def newStatusFor (now : Int) (e : Event) : Status :=
  if e.date ≤ now - thirtyMinutesMs then Status.completed
  else if e.date ≤ now then Status.ongoing
  else Status.upcoming

/-- The per-record instance method `EventSchema.methods.updateStatus`:
cancelled records are returned untouched; otherwise the record is
rewritten exactly when the recomputed status differs from the current
one. -/
def updateStatus (now : Int) (e : Event) : Event :=
  if e.status = Status.cancelled then
    e
  else if newStatusFor now e ≠ e.status then
    { e with status := newStatusFor now e,
             lastStatusUpdate := some now,
             statusUpdateCount := e.statusUpdateCount + 1,
             completedAt :=
               if newStatusFor now e = Status.completed then some now
               else none }
  else
    e

/-- The transition target stated by the specification, written from the
spec text for comparison with the code: upcoming when `t > now`,
ongoing when `0 ≤ now - t <` thirty minutes, completed when
`now - t ≥` thirty minutes. -/
def specTargetStatus (now t : Int) : Status :=
  if now < t then Status.upcoming
  else if now - t < thirtyMinutesMs then Status.ongoing
  else Status.completed

/-- The mutable state of the `EventStatusService` singleton that a
reconciliation pass touches: the `isRunning` guard flag together with
the shared event store, modelled as the list of event records. -/
structure ServiceState where
  isRunning : Bool
  events : List Event
deriving DecidableEq

/-- Which of the four awaited store operations of one pass of
`updateAllEventStatuses` throw, in source order: the three `updateMany`
calls and the final status-summary `aggregate`. -/
structure StoreBehavior where
  ongoingUpdateFails : Bool
  completedUpdateFails : Bool
  upcomingUpdateFails : Bool
  aggregateFails : Bool
deriving DecidableEq

/-- The `try` block of `updateAllEventStatuses`: the three `updateMany`
operations and the `aggregate`, executed in source order over the
store.  The first component reports whether an exception was raised
(ending the block early); the second is the store contents afterwards —
operations before the failing one have already persisted. -/
def passBody (b : StoreBehavior) (now : Int) (events : List Event) :
    Except Unit Unit × List Event :=
  if b.ongoingUpdateFails then
    (Except.error (), events)
  else
    let evs1 := events.map (ongoingUpdate now)
    if b.completedUpdateFails then
      (Except.error (), evs1)
    else
      let evs2 := evs1.map (completedUpdate now)
      if b.upcomingUpdateFails then
        (Except.error (), evs2)
      else
        let evs3 := evs2.map (upcomingUpdate now)
        if b.aggregateFails then
          (Except.error (), evs3)
        else
          (Except.ok (), evs3)

/-- `EventStatusService.updateAllEventStatuses`: if `isRunning` is set
the method logs and returns `undefined` at once, before any store
access.  Otherwise it sets `isRunning`, runs the pass body, absorbs any
exception in its `catch` block (no rethrow), and clears `isRunning` in
`finally`.  Every path returns `undefined`, modelled as `Unit`. -/
def updateAllEventStatuses (b : StoreBehavior) (now : Int)
    (s : ServiceState) : Unit × ServiceState :=
  if s.isRunning then
    ((), s)
  else
    let afterGuard : ServiceState := { s with isRunning := true }
    let bodyResult := passBody b now afterGuard.events
    match bodyResult.1 with
    | Except.ok () => ((), { isRunning := false, events := bodyResult.2 })
    | Except.error () => ((), { isRunning := false, events := bodyResult.2 })

/-- `EventStatusService.manualUpdate`, the target of the manual
trigger: it returns the awaited result of `updateAllEventStatuses`. -/
def manualUpdate (b : StoreBehavior) (now : Int) (s : ServiceState) :
    Unit × ServiceState :=
  updateAllEventStatuses b now s

/-- The summary object built by `EventSchema.statics.updateEventsStatus`. -/
structure UpdateSummary where
  updated : Nat
  completed : Nat
  ongoing : Nat
  upcoming : Nat
deriving DecidableEq

/-- The candidate filter of `updateEventsStatus`: `status ≠ cancelled`
and (`lastStatusUpdate` older than five minutes before `now`, or
absent). -/
def isCandidate (now : Int) (e : Event) : Bool :=
  decide (e.status ≠ Status.cancelled) &&
    (match e.lastStatusUpdate with
     | some t => decide (t < now - fiveMinutesMs)
     | none => true)

/-- The tally in the `switch` of `updateEventsStatus`: `updated` is
incremented, then the bucket of the record's new status. -/
def tally (acc : UpdateSummary) (st : Status) : UpdateSummary :=
  { updated := acc.updated + 1,
    completed := if st = Status.completed then acc.completed + 1 else acc.completed,
    ongoing := if st = Status.ongoing then acc.ongoing + 1 else acc.ongoing,
    upcoming := if st = Status.upcoming then acc.upcoming + 1 else acc.upcoming }

/-- The `for` loop of `updateEventsStatus`: each candidate record runs
`updateStatus`; when that modified `status` the record is saved (a save
may throw, per the `savefailure` predicate) and tallied.  The loop sits
inside a single `try` whose `catch` logs and rethrows, so the first
failing save aborts the whole pass with the error. -/
def updateEventsStatusLoop (savefailure : Event → Bool) (now : Int) :
    List Event → UpdateSummary → Except Unit UpdateSummary
  | [], acc => Except.ok acc
  | e :: rest, acc =>
    let e2 := updateStatus now e
    if e2.status ≠ e.status then
      if savefailure e2 then
        Except.error ()
      else
        updateEventsStatusLoop savefailure now rest (tally acc e2.status)
    else
      updateEventsStatusLoop savefailure now rest acc

/-- `EventSchema.statics.updateEventsStatus`: select the candidate
records, run the per-record loop starting from a zero summary, and
return the summary — or rethrow the first error. -/
def updateEventsStatus (savefailure : Event → Bool) (now : Int)
    (events : List Event) : Except Unit UpdateSummary :=
  updateEventsStatusLoop savefailure now (events.filter (isCandidate now))
    ⟨0, 0, 0, 0⟩

/-- The object returned by `EventStatusService.getStatus`.  The
`updateInterval` is kept in minutes; `lastRun` and `nextRun` are
instants in milliseconds. -/
structure ServiceStatusView where
  isRunning : Bool
  enabled : Bool
  updateInterval : Nat
  lastRun : Int
  nextRun : Int
deriving DecidableEq

/-- `EventStatusService.getStatus`: a read of the service flags plus
two fresh wall-clock reads — `lastRun` is `new Date()` at the call and
`nextRun` is `Date.now()` plus `updateInterval` minutes.  `callTime` is
the wall-clock instant of the call; no field consults when a pass
actually ran. -/
def getStatus (running enabled : Bool) (updateInterval : Nat)
    (callTime : Int) : ServiceStatusView :=
  { isRunning := running,
    enabled := enabled,
    updateInterval := updateInterval,
    lastRun := callTime,
    nextRun := callTime + (updateInterval : Int) * 60 * 1000 }

/-- Case-split normal form of `servicePass`, used as a proof vehicle:
what the three sequential updates amount to for each starting status. -/
def servicePassCases (now : Int) (e : Event) : Event :=
  match e.status with
  | Status.cancelled => e
  | Status.upcoming =>
    if now < e.date then e
    else if now - thirtyMinutesMs ≤ e.date then
      { e with status := Status.ongoing, lastStatusUpdate := some now }
    else
      { e with status := Status.completed, completedAt := some now,
               lastStatusUpdate := some now }
  | Status.ongoing =>
    if now < e.date then
      { e with status := Status.upcoming, completedAt := none,
               lastStatusUpdate := some now }
    else if now - thirtyMinutesMs ≤ e.date then
      { e with status := Status.ongoing, lastStatusUpdate := some now }
    else
      { e with status := Status.completed, completedAt := some now,
               lastStatusUpdate := some now }
  | Status.completed =>
    if now < e.date then
      { e with status := Status.upcoming, completedAt := none,
               lastStatusUpdate := some now }
    else e

/-- On any single record, the three sequential updates of one service
pass reduce to the case-split normal form. -/
theorem servicePass_eq_cases (now : Int) (e : Event) :
    servicePass now e = servicePassCases now e := by
  rcases e with ⟨d, s, c, l, n⟩
  cases s <;>
    simp only [servicePass, servicePassCases, ongoingUpdate, completedUpdate,
      upcomingUpdate, thirtyMinutesMs] <;>
    split_ifs <;>
    simp_all <;>
    omega

/-- The recomputed target of `updateStatus` is never `cancelled`. -/
theorem newStatusFor_ne_cancelled (now : Int) (e : Event) :
    newStatusFor now e ≠ Status.cancelled := by
  unfold newStatusFor
  split_ifs <;> simp

/-- `updateStatus` never touches the scheduled date. -/
theorem updateStatus_date (now : Int) (e : Event) :
    (updateStatus now e).date = e.date := by
  unfold updateStatus
  split_ifs <;> rfl

/-- On a non-cancelled record, `updateStatus` leaves the status equal
to the recomputed target. -/
theorem updateStatus_status (now : Int) (e : Event)
    (h : e.status ≠ Status.cancelled) :
    (updateStatus now e).status = newStatusFor now e := by
  unfold updateStatus
  split_ifs with h1 h2 h3
  · exact absurd h1 h
  · rfl
  · rfl
  · exact (not_ne_iff.mp h2).symm

/-- A record whose status already equals the recomputed target is left
untouched by `updateStatus`. -/
theorem updateStatus_fixed (now : Int) (e : Event)
    (h : newStatusFor now e = e.status) :
    updateStatus now e = e := by
  unfold updateStatus
  split_ifs with h1 h2 h3
  · rfl
  · exact absurd h h2
  · exact absurd h h2
  · rfl

/-- The recomputed target only reads the date, which `updateStatus`
preserves. -/
theorem newStatusFor_updateStatus (now : Int) (e : Event) :
    newStatusFor now (updateStatus now e) = newStatusFor now e := by
  unfold newStatusFor
  rw [updateStatus_date]

/-- The case-split normal form of the service pass is idempotent at a
fixed instant. -/
theorem servicePassCases_idempotent (now : Int) (e : Event) :
    servicePassCases now (servicePassCases now e) = servicePassCases now e := by
  rcases e with ⟨d, s, c, l, n⟩
  cases s <;>
    simp only [servicePassCases, thirtyMinutesMs] <;>
    split_ifs <;>
    simp only [servicePassCases, thirtyMinutesMs] <;>
    split_ifs <;>
    first
      | rfl
      | omega
      | simp_all

/-- `updateStatus` on a cancelled record returns it untouched. -/
theorem updateStatus_cancelled (now : Int) (e : Event)
    (h : e.status = Status.cancelled) :
    updateStatus now e = e := by
  simp [updateStatus, h]

/-- `updateStatus` on a record whose recomputed target differs from the
current status rewrites exactly the four tracked fields. -/
theorem updateStatus_changed (now : Int) (e : Event)
    (hc : e.status ≠ Status.cancelled)
    (ht : newStatusFor now e ≠ e.status) :
    updateStatus now e =
      { e with status := newStatusFor now e,
               lastStatusUpdate := some now,
               statusUpdateCount := e.statusUpdateCount + 1,
               completedAt :=
                 if newStatusFor now e = Status.completed then some now
                 else none } := by
  unfold updateStatus
  split_ifs <;> simp_all

/-- An upcoming event whose scheduled instant is the epoch, used to
probe the grace-window boundary. -/
def boundaryEvent : Event :=
  { date := 0, status := Status.upcoming, completedAt := none,
    lastStatusUpdate := none, statusUpdateCount := 0 }

/-- Claim C1, counterexample: at exactly thirty minutes past
`scheduledAt` (`now - t` equal to the grace window) the claimed rule
demands `completed`, but one service pass drives an upcoming record to
`ongoing`, because the completed query uses a strict bound while the
ongoing query's window is closed.  A completed record ten minutes past
its date is likewise left `completed` even though the claimed rule
demands `ongoing` for every non-cancelled prior status. -/
theorem c1_transition_rule_counterexample :
    specTargetStatus 1800000 0 = Status.completed ∧
    (servicePass 1800000 boundaryEvent).status = Status.ongoing ∧
    boundaryEvent.status ≠ Status.cancelled ∧
    specTargetStatus 600000 0 = Status.ongoing ∧
    (servicePass 600000
        { date := 0, status := Status.completed, completedAt := some 0,
          lastStatusUpdate := none, statusUpdateCount := 0 }).status =
      Status.completed := by
  decide

/-- Claim C1, amended: the per-record method `updateStatus` drives a
non-cancelled record exactly to the claimed target (upcoming when
`t > now`, ongoing when `0 ≤ now - t <` thirty minutes, completed when
`now - t ≥` thirty minutes).  The scheduler's bulk pass instead drives
an upcoming or ongoing record to ongoing when `0 ≤ now - t ≤` thirty
minutes and to completed only when `now - t >` thirty minutes, and it
moves a completed record only to upcoming when `t > now`, leaving a
completed record with `t ≤ now` unchanged regardless of the window. -/
theorem c1_transition_rule_amended (now : Int) (e : Event) :
    (updateStatus now e).status =
      (if e.status = Status.cancelled then e.status
       else specTargetStatus now e.date) ∧
    (servicePass now e).status =
      (match e.status with
       | Status.cancelled => Status.cancelled
       | Status.upcoming =>
         if now < e.date then Status.upcoming
         else if now - thirtyMinutesMs ≤ e.date then Status.ongoing
         else Status.completed
       | Status.ongoing =>
         if now < e.date then Status.upcoming
         else if now - thirtyMinutesMs ≤ e.date then Status.ongoing
         else Status.completed
       | Status.completed =>
         if now < e.date then Status.upcoming else Status.completed) := by
  constructor
  · rcases e with ⟨d, s, c, l, n⟩
    cases s <;>
      simp only [updateStatus, newStatusFor, specTargetStatus,
        thirtyMinutesMs] <;>
      split_ifs <;>
      first
        | rfl
        | omega
        | simp_all
        | (exfalso; omega)
        | (simp_all; omega)
  · rw [servicePass_eq_cases]
    rcases e with ⟨d, s, c, l, n⟩
    cases s <;>
      simp only [servicePassCases] <;>
      split_ifs <;>
      rfl

/-- Claim C2: one reconciliation pass is idempotent at the same `now` —
running it a second time leaves every record exactly as the first run
left it, for both the bulk service pass and the per-record method, so
no field (in particular `statusUpdateCount` and `lastStatusUpdate`)
changes on the second run. -/
theorem c2_pass_idempotent (now : Int) (e : Event) :
    servicePass now (servicePass now e) = servicePass now e ∧
    updateStatus now (updateStatus now e) = updateStatus now e := by
  constructor
  · simp only [servicePass_eq_cases]
    exact servicePassCases_idempotent now e
  · by_cases hc : e.status = Status.cancelled
    · have he : updateStatus now e = e := by simp [updateStatus, hc]
      rw [he]
      exact he
    · apply updateStatus_fixed
      rw [newStatusFor_updateStatus, updateStatus_status now e hc]

/-- An upcoming event scheduled at the epoch with a zero update count,
entering the grace window at the probed instant. -/
def freshUpcomingEvent : Event :=
  { date := 0, status := Status.upcoming, completedAt := none,
    lastStatusUpdate := none, statusUpdateCount := 0 }

/-- An ongoing event inside the grace window carrying an old
`lastStatusUpdate` stamp. -/
def staleOngoingEvent : Event :=
  { date := 0, status := Status.ongoing, completedAt := none,
    lastStatusUpdate := some 0, statusUpdateCount := 5 }

/-- Claim C3, counterexample: ten minutes past its date, one service
pass moves the fresh upcoming event to a different status yet leaves
`statusUpdateCount` at zero (the bulk updates never touch that field),
and it rewrites `lastStatusUpdate` of the in-window ongoing event even
though that record's status does not change. -/
theorem c3_status_update_count_counterexample :
    (servicePass 600000 freshUpcomingEvent).status ≠
      freshUpcomingEvent.status ∧
    (servicePass 600000 freshUpcomingEvent).statusUpdateCount =
      freshUpcomingEvent.statusUpdateCount ∧
    (servicePass 600000 staleOngoingEvent).status =
      staleOngoingEvent.status ∧
    (servicePass 600000 staleOngoingEvent).lastStatusUpdate ≠
      staleOngoingEvent.lastStatusUpdate := by
  decide

/-- Claim C3, amended: `statusUpdateCount` is monotonically
non-decreasing; the per-record method `updateStatus` increments it by
exactly one exactly when it changes the status, and a same-status
recomputation writes nothing at all.  The scheduler's bulk pass,
however, never modifies `statusUpdateCount` — even when it changes a
record's status — and it rewrites `lastStatusUpdate` of an ongoing
record inside the grace window although the status stays the same. -/
theorem c3_status_update_count_amended (now : Int) (e : Event) :
    (servicePass now e).statusUpdateCount = e.statusUpdateCount ∧
    e.statusUpdateCount ≤ (updateStatus now e).statusUpdateCount ∧
    (updateStatus now e).statusUpdateCount =
      (if (updateStatus now e).status = e.status then e.statusUpdateCount
       else e.statusUpdateCount + 1) ∧
    (if (updateStatus now e).status = e.status then updateStatus now e = e
     else (updateStatus now e).lastStatusUpdate = some now) ∧
    (if e.status = Status.ongoing ∧ now - thirtyMinutesMs ≤ e.date ∧
        e.date ≤ now then
       (servicePass now e).status = e.status ∧
       (servicePass now e).lastStatusUpdate = some now
     else True) := by
  refine ⟨?_, ?_, ?_, ?_, ?_⟩
  · rw [servicePass_eq_cases]
    rcases e with ⟨d, s, c, l, n⟩
    cases s <;> simp only [servicePassCases] <;> split_ifs <;> rfl
  · by_cases hc : e.status = Status.cancelled
    · rw [updateStatus_cancelled now e hc]
    · by_cases ht : newStatusFor now e = e.status
      · rw [updateStatus_fixed now e ht]
      · rw [updateStatus_changed now e hc ht]
        exact Nat.le_succ _
  · by_cases hc : e.status = Status.cancelled
    · rw [updateStatus_cancelled now e hc]
      simp
    · by_cases ht : newStatusFor now e = e.status
      · rw [updateStatus_fixed now e ht]
        simp
      · rw [updateStatus_changed now e hc ht]
        simp [ht]
  · by_cases hc : e.status = Status.cancelled
    · rw [updateStatus_cancelled now e hc]
      simp
    · by_cases ht : newStatusFor now e = e.status
      · rw [updateStatus_fixed now e ht]
        simp
      · rw [updateStatus_changed now e hc ht]
        simp [ht]
  · split_ifs with hw
    · obtain ⟨hs, h1, h2⟩ := hw
      rw [servicePass_eq_cases]
      rcases e with ⟨d, s, c, l, n⟩
      simp only at hs h1 h2
      subst hs
      simp only [servicePassCases, thirtyMinutesMs] at h1 ⊢
      split_ifs <;>
        first
          | exact ⟨rfl, rfl⟩
          | (exfalso; omega)

/-- A cancelled event one day past its scheduled date. -/
def cancelledEvent : Event :=
  { date := -86400000, status := Status.cancelled, completedAt := none,
    lastStatusUpdate := none, statusUpdateCount := 0 }

/-- Claim C4: cancelled is sticky — a cancelled record is left wholly
untouched by one service pass, by the per-record method, and by any
sequence of service passes at arbitrary instants. -/
theorem c4_cancelled_sticky (e : Event)
    (h : e.status = Status.cancelled) :
    (∀ now : Int, servicePass now e = e ∧ updateStatus now e = e) ∧
    (∀ nows : List Int,
      nows.foldl (fun ev n => servicePass n ev) e = e) := by
  have hp : ∀ now : Int, servicePass now e = e := by
    intro now
    rw [servicePass_eq_cases]
    rcases e with ⟨d, s, c, l, n⟩
    simp only at h
    subst h
    rfl
  refine ⟨fun now => ⟨hp now, updateStatus_cancelled now e h⟩, ?_⟩
  intro nows
  induction nows with
  | nil => rfl
  | cons a t ih =>
    simp only [List.foldl_cons, hp a]
    exact ih

/-- Claim C4, witness: the sticky property evaluated on a concrete
cancelled record across a concrete sequence of passes. -/
theorem c4_cancelled_sticky_witness :
    cancelledEvent.status = Status.cancelled ∧
    servicePass 0 cancelledEvent = cancelledEvent ∧
    updateStatus 0 cancelledEvent = cancelledEvent ∧
    [0, 1800000, 3600000].foldl (fun ev n => servicePass n ev)
        cancelledEvent = cancelledEvent :=
  ⟨rfl, ((c4_cancelled_sticky cancelledEvent rfl).1 0).1,
    ((c4_cancelled_sticky cancelledEvent rfl).1 0).2,
    (c4_cancelled_sticky cancelledEvent rfl).2 [0, 1800000, 3600000]⟩

/-- Coherence of the completion stamp: `completedAt` is set exactly
when the status is `completed`. -/
def coherentState (e : Event) : Prop :=
  e.status = Status.completed ↔ e.completedAt.isSome = true

instance (e : Event) : Decidable (coherentState e) := by
  unfold coherentState
  infer_instance

/-- Claim C5: every pass preserves completion-stamp coherence, for both
the bulk service pass and the per-record method; moreover the pass
leaves `completedAt` equal to `now` exactly when it moves the record
into `completed`, keeps the old stamp on a record staying `completed`,
and clears the stamp whenever the record ends up outside `completed`. -/
theorem c5_completed_at_coherent (now : Int) (e : Event)
    (h : coherentState e) :
    coherentState (servicePass now e) ∧
    coherentState (updateStatus now e) ∧
    (servicePass now e).completedAt =
      (if (servicePass now e).status = Status.completed then
         (if e.status = Status.completed then e.completedAt else some now)
       else none) := by
  refine ⟨?_, ?_, ?_⟩
  · rw [servicePass_eq_cases]
    rcases e with ⟨d, s, c, l, n⟩
    unfold coherentState at h ⊢
    cases s <;> cases c <;>
      simp only [servicePassCases] <;>
      (try split_ifs) <;>
      simp_all
  · unfold coherentState at h ⊢
    by_cases hc : e.status = Status.cancelled
    · rw [updateStatus_cancelled now e hc]
      exact h
    · by_cases ht : newStatusFor now e = e.status
      · rw [updateStatus_fixed now e ht]
        exact h
      · rw [updateStatus_changed now e hc ht]
        split_ifs with hcomp <;> simp [hcomp]
  · rw [servicePass_eq_cases]
    rcases e with ⟨d, s, c, l, n⟩
    unfold coherentState at h
    cases s <;> cases c <;>
      simp only [servicePassCases] <;>
      (try split_ifs) <;>
      simp_all

/-- An upcoming event an hour past due, with a coherent (absent)
completion stamp. -/
def pastDueUpcomingEvent : Event :=
  { date := 0, status := Status.upcoming, completedAt := none,
    lastStatusUpdate := none, statusUpdateCount := 0 }

/-- Claim C5, witness: coherence preservation and the completion-stamp
equation evaluated on a concrete record an hour past due. -/
theorem c5_completed_at_coherent_witness :
    coherentState pastDueUpcomingEvent ∧
    coherentState (servicePass 3600000 pastDueUpcomingEvent) ∧
    (servicePass 3600000 pastDueUpcomingEvent).completedAt =
      (if (servicePass 3600000 pastDueUpcomingEvent).status =
          Status.completed then
         (if pastDueUpcomingEvent.status = Status.completed then
            pastDueUpcomingEvent.completedAt
          else some 3600000)
       else none) :=
  ⟨by decide,
    (c5_completed_at_coherent 3600000 pastDueUpcomingEvent (by decide)).1,
    (c5_completed_at_coherent 3600000 pastDueUpcomingEvent (by decide)).2.2⟩

instance {ε α : Type} [DecidableEq ε] [DecidableEq α] :
    DecidableEq (Except ε α) := fun a b =>
  match a, b with
  | Except.error x, Except.error y =>
    if h : x = y then Decidable.isTrue (by rw [h])
    else Decidable.isFalse (by simp [h])
  | Except.error _, Except.ok _ => Decidable.isFalse (by simp)
  | Except.ok _, Except.error _ => Decidable.isFalse (by simp)
  | Except.ok x, Except.ok y =>
    if h : x = y then Decidable.isTrue (by rw [h])
    else Decidable.isFalse (by simp [h])

/-- A store on which every operation succeeds. -/
def calmStore : StoreBehavior :=
  { ongoingUpdateFails := false, completedUpdateFails := false,
    upcomingUpdateFails := false, aggregateFails := false }

/-- A store whose first bulk update throws. -/
def failingStore : StoreBehavior :=
  { ongoingUpdateFails := true, completedUpdateFails := false,
    upcomingUpdateFails := false, aggregateFails := false }

/-- A service state with a pass already in flight over a store holding
one stale upcoming record. -/
def busyState : ServiceState :=
  { isRunning := true,
    events := [{ date := 0, status := Status.upcoming, completedAt := none,
                 lastStatusUpdate := none, statusUpdateCount := 0 }] }

/-- The same one-record store with no pass in flight. -/
def idleState : ServiceState :=
  { isRunning := false,
    events := [{ date := 0, status := Status.upcoming, completedAt := none,
                 lastStatusUpdate := none, statusUpdateCount := 0 }] }

/-- An idle service state over an empty store. -/
def emptyIdleState : ServiceState :=
  { isRunning := false, events := [] }

/-- Claim C6, counterexample: a call made while a pass is in flight
does return before touching the store, but its outcome is neither of
the two contractual options — it does not wait (the stale record is
left untouched even though an idle pass would rewrite it) and it
returns the very same `undefined` value an idle pass returns, so there
is no explicit already-running signal distinguishable by the caller. -/
theorem c6_reentrancy_counterexample :
    (updateAllEventStatuses calmStore 600000 busyState).2 = busyState ∧
    (updateAllEventStatuses calmStore 600000 busyState).1 =
      (updateAllEventStatuses calmStore 600000 idleState).1 ∧
    (updateAllEventStatuses calmStore 600000 idleState).2.events ≠
      busyState.events := by
  decide

/-- Claim C6, amended: if the method is invoked while a pass is in
flight, no second pass starts — the `isRunning` guard is checked before
any store access and the call returns at once with the state wholly
untouched; the returned value is the same `undefined` every call
returns, so no distinguishable already-running signal exists. -/
theorem c6_reentrancy_amended (b : StoreBehavior) (now : Int)
    (s : ServiceState) (h : s.isRunning = true) :
    updateAllEventStatuses b now s = ((), s) := by
  simp [updateAllEventStatuses, h]

/-- Claim C6, witness: the guard evaluated on the concrete busy
state. -/
theorem c6_reentrancy_amended_witness :
    busyState.isRunning = true ∧
    updateAllEventStatuses calmStore 600000 busyState = ((), busyState) :=
  ⟨rfl, c6_reentrancy_amended calmStore 600000 busyState rfl⟩

/-- Claim C7, counterexample: a manual trigger issued while a pass is
in flight performs no pass at all (the stale record stays untouched,
though an idle trigger rewrites it), and the value returned by an idle
trigger over a store with one update is identical to the value returned
over an empty store with zero updates — the return carries no counts
and no total, hence no summary. -/
theorem c7_manual_trigger_counterexample :
    (manualUpdate calmStore 600000 busyState).2 = busyState ∧
    (manualUpdate calmStore 600000 idleState).2.events ≠
      idleState.events ∧
    (manualUpdate calmStore 600000 idleState).1 =
      (manualUpdate calmStore 600000 emptyIdleState).1 := by
  decide

/-- Claim C7, amended: `manualUpdate` defers to
`updateAllEventStatuses`, which runs one pass immediately when no pass
is in flight and performs nothing when one is; its returned value is
the same `undefined` on every invocation — the per-status transition
counts and the updated total are only logged, never returned (the
schema's bulk static method does build such a summary, but the manual
trigger does not call it). -/
theorem c7_manual_trigger_amended (b : StoreBehavior) (now : Int)
    (s : ServiceState) :
    manualUpdate b now s =
      ((), if s.isRunning = true then s
           else { isRunning := false,
                  events := (passBody b now s.events).2 }) ∧
    ∀ (b2 : StoreBehavior) (now2 : Int) (s2 : ServiceState),
      (manualUpdate b now s).1 = (manualUpdate b2 now2 s2).1 := by
  constructor
  · unfold manualUpdate updateAllEventStatuses
    by_cases h : s.isRunning = true
    · simp [h]
    · simp only [h, if_false]
      rcases hpb : (passBody b now s.events).1 with u | u
      · cases u
        simp [hpb]
      · cases u
        simp [hpb]
  · intro b2 now2 s2
    exact Subsingleton.elim _ _

/-- Claim C8: for every store behavior — including ones whose
operations throw — a pass entered with the guard clear returns
normally (the catch block absorbs the error; no exception reaches the
caller) and leaves `isRunning` cleared, the store holding whatever the
operations before the failure persisted. -/
theorem c8_error_containment (b : StoreBehavior) (now : Int)
    (s : ServiceState) (h : s.isRunning = false) :
    (updateAllEventStatuses b now s).2.isRunning = false ∧
    updateAllEventStatuses b now s =
      ((), { isRunning := false,
             events := (passBody b now s.events).2 }) := by
  have hmain : updateAllEventStatuses b now s =
      ((), { isRunning := false,
             events := (passBody b now s.events).2 }) := by
    unfold updateAllEventStatuses
    simp only [h, if_false]
    rcases hpb : (passBody b now s.events).1 with u | u
    · cases u
      simp [hpb]
    · cases u
      simp [hpb]
  exact ⟨by rw [hmain], hmain⟩

/-- Claim C8, witness: the containment property evaluated on a store
whose very first update throws; the body does raise the error, yet the
flag ends cleared. -/
theorem c8_error_containment_witness :
    idleState.isRunning = false ∧
    (passBody failingStore 600000 idleState.events).1 =
      Except.error () ∧
    (updateAllEventStatuses failingStore 600000 idleState).2.isRunning =
      false :=
  ⟨rfl, by decide,
    (c8_error_containment failingStore 600000 idleState rfl).1⟩

/-- A stale upcoming record well past the grace window. -/
def staleEventA : Event :=
  { date := 0, status := Status.upcoming, completedAt := none,
    lastStatusUpdate := none, statusUpdateCount := 0 }

/-- A second stale upcoming record, one minute later. -/
def staleEventB : Event :=
  { date := 60000, status := Status.upcoming, completedAt := none,
    lastStatusUpdate := none, statusUpdateCount := 0 }

/-- Claim C9, counterexample: with two stale candidates and a store
whose saves throw, the bulk pass returns the rethrown error — it does
not continue to the second candidate and reports no count at all, even
though the second record also needed an update. -/
theorem c9_per_record_error_counterexample :
    updateEventsStatus (fun _ => true) 3600000 [staleEventA, staleEventB] =
      Except.error () ∧
    isCandidate 3600000 staleEventB = true ∧
    (updateStatus 3600000 staleEventB).status ≠ staleEventB.status := by
  decide

/-- Claim C9, amended: a failure while saving an individual record
aborts the pass — the single try/catch wrapping the loop logs and
rethrows, so whenever the first candidate's save throws the caller of
`updateEventsStatus` receives the error and no later candidate is
processed and no summary is returned. -/
theorem c9_per_record_error_amended (savefailure : Event → Bool)
    (now : Int) (e : Event) (rest : List Event)
    (h1 : isCandidate now e = true)
    (h2 : (updateStatus now e).status ≠ e.status)
    (h3 : savefailure (updateStatus now e) = true) :
    updateEventsStatus savefailure now (e :: rest) = Except.error () := by
  unfold updateEventsStatus
  simp [List.filter_cons, h1, updateEventsStatusLoop, h2, h3]

/-- Claim C9, witness: the abort evaluated at a concrete stale record
whose save throws. -/
theorem c9_per_record_error_amended_witness :
    isCandidate 3600000 staleEventA = true ∧
    (updateStatus 3600000 staleEventA).status ≠ staleEventA.status ∧
    updateEventsStatus (fun _ => true) 3600000 [staleEventA] =
      Except.error () :=
  ⟨by decide, by decide,
    c9_per_record_error_amended (fun _ => true) 3600000 staleEventA []
      (by decide) (by decide) rfl⟩

/-- Claim C10: `getStatus` is a pure read — it reports the service
flags unchanged, and both clock fields are derived solely from the
wall-clock instant of the call itself: `lastRun` is exactly that
instant and `nextRun` is that instant plus `updateInterval` minutes,
with no reference to when a pass actually ran or is scheduled. -/
theorem c10_get_status_wall_clock (running enabledFlag : Bool)
    (ival : Nat) (t : Int) :
    (getStatus running enabledFlag ival t).lastRun = t ∧
    (getStatus running enabledFlag ival t).nextRun =
      t + (ival : Int) * 60 * 1000 ∧
    (getStatus running enabledFlag ival t).isRunning = running ∧
    (getStatus running enabledFlag ival t).enabled = enabledFlag ∧
    (getStatus running enabledFlag ival t).updateInterval = ival :=
  ⟨rfl, rfl, rfl, rfl, rfl⟩

end UniEventHub
